import Mathlib

/-!
Verification of the parallel batch-grading orchestrator in
`src/agent/webhook_server.py` (finnish-student-assistant).

The Python module is shallowly embedded: each function below mirrors the
control flow of the correspondingly named Python function.  External
effects are passed in explicitly:
  * `jl` models `json.loads` on the extracted span (`none` = the call
    raises `json.JSONDecodeError`);
  * `pf` models Python's `float(...)` coercion (`none` = the call raises,
    e.g. `ValueError`/`TypeError`);
  * an `Attempt` environment models one agent invocation per retry
    attempt (the agent either returns a response text or raises);
  * a `post : Nat → Bool` environment models the callback endpoint
    (`true` = the POST on that attempt returned a 2xx status).
Wall-clock fields (`processing_time_seconds`, `timestamp`) are not
modelled.
-/

namespace WebhookServer

/-- `MAX_PARALLEL_TASKS = 4` (webhook_server.py line 45). -/
def MAX_PARALLEL_TASKS : Nat := 4

/-- `MAX_RETRIES = 3` (line 46). -/
def MAX_RETRIES : Nat := 3

/-- `RETRY_DELAY = 2` seconds (line 47). -/
def RETRY_DELAY : Nat := 2

/-- `REQUEST_TIMEOUT = 120` seconds per question (line 48). -/
def REQUEST_TIMEOUT : Nat := 120

/-- A decoded JSON value, as produced by `json.loads`. -/
inductive JVal where
  | jnum (q : ℚ)
  | jstr (s : String)
  | jbool (b : Bool)
  | jnull
  | jarr (elems : List JVal)
  | jobj (fields : List (String × JVal))
deriving Repr

/-- `fields.get(key)` on a decoded JSON dict (first matching key). -/
def jlookup (fields : List (String × JVal)) (key : String) : Option JVal :=
  match fields with
  | [] => none
  | (k, v) :: rest => if k = key then some v else jlookup rest key

/-- Python `str.strip()` on the response text (drop whitespace at both ends). -/
def pyStrip (s : List Char) : List Char :=
  ((s.dropWhile Char.isWhitespace).reverse.dropWhile Char.isWhitespace).reverse

/-- Python `str.find(c)`: index of the first occurrence, `-1` when absent. -/
def pyFind (s : List Char) (c : Char) : Int :=
  match s.findIdx? (· == c) with
  | some i => (i : Int)
  | none => -1

/-- Python `str.rfind(c)`: index of the last occurrence, `-1` when absent. -/
def pyRFind (s : List Char) (c : Char) : Int :=
  match s.reverse.findIdx? (· == c) with
  | some i => (s.length : Int) - 1 - (i : Int)
  | none => -1

/-- Python slice `s[a:b]` for `0 ≤ a ≤ b`. -/
def pySlice (s : List Char) (a b : Int) : List Char :=
  (s.take b.toNat).drop a.toNat

/-- The dict built by `parse_agent_response` (without the `status` /
`error_message` keys, which `grade_single_question` adds afterwards). -/
structure ParseResult where
  question_id : Int
  order : Int
  points_earned : ℚ
  points_possible : ℚ
  feedback : JVal
  correct_answer : JVal
deriving Repr

/-- The default dict returned when no JSON span is found in the response or
the extracted span fails to decode (webhook_server.py lines 213-220). -/
def parseDefault (order : Int) : ParseResult :=
  { question_id := order, order := order, points_earned := 0, points_possible := 3,
    feedback := JVal.jstr "Vastauksen käsittelyssä tapahtui virhe.",
    correct_answer := JVal.jstr "" }

/-- Lines 198-208 plus the fallthrough to the default: decoding of the
extracted `json_str` span.  A decode failure (`json.JSONDecodeError`) is
caught by the `except` clause, so control falls through to the default
return; an exception raised after decoding (`.get` on a non-dict value, or
a failing `float(...)` coercion) is not `json.JSONDecodeError` and
propagates (`Except.error`). -/
def decodeSpan (jl : List Char → Option JVal) (pf : JVal → Option ℚ)
    (json_str : List Char) (order : Int) : Except String ParseResult :=
  match jl json_str with
  | none => Except.ok (parseDefault order)
  | some (JVal.jobj fields) =>
    match pf ((jlookup fields "points_earned").getD (JVal.jnum 0)),
          pf ((jlookup fields "points_possible").getD (JVal.jnum 3)) with
    | some pe, some pp =>
      Except.ok
        { question_id := order, order := order, points_earned := pe,
          points_possible := pp,
          feedback := (jlookup fields "feedback").getD (JVal.jstr ""),
          correct_answer := (jlookup fields "correct_answer").getD (JVal.jstr "") }
    | _, _ => Except.error "could not convert value to float"
  | some _ => Except.error "object has no attribute get"

/-- `parse_agent_response(response, order)` (lines 183-220).  Strips the
response, takes the span from the first `'{'` to the last `'}'`, and
decodes it via `decodeSpan`; when no such span exists, skips decoding and
returns the default dict. -/
def parse_agent_response (jl : List Char → Option JVal) (pf : JVal → Option ℚ)
    (response : List Char) (order : Int) : Except String ParseResult :=
  let response := pyStrip response
  let start_idx := pyFind response '{'
  let end_idx := pyRFind response '}' + 1
  if start_idx ≠ -1 ∧ end_idx > start_idx then
    decodeSpan jl pf (pySlice response start_idx end_idx) order
  else Except.ok (parseDefault order)

/-- `"success"` / `"error"` status strings on a result dict. -/
inductive GradeStatus where
  | success
  | error
deriving DecidableEq, Repr

/-- A per-question result dict (the shape built by `grade_single_question`
and `process_all_questions`; the `GradingResult` pydantic model lists the
same fields but is never applied to these dicts). -/
structure GradeResult where
  question_id : Int
  order : Int
  points_earned : ℚ
  points_possible : ℚ
  feedback : JVal
  correct_answer : JVal
  status : GradeStatus
  error_message : Option String
deriving Repr

/-- A submitted question dict.  Only the keys the orchestrator itself reads
are represented (`question.get("order", ...)` and
`question.get("points_possible", 3)`); `none` models an absent key.  The
remaining keys (`question_text`, `question_type`, ...) only feed the opaque
agent input built by `format_question_for_agent`. -/
structure Question where
  order : Option Int
  points_possible : Option ℚ
deriving Repr

/-- One agent invocation inside an attempt of `grade_single_question`:
either the agent run produced a response text, or the attempt raised
(timeout, session/transport failure, ...) with message `msg`. -/
inductive Attempt where
  | ok (response : List Char)
  | exn (msg : String)

/-- The outcome of the `try` body of one attempt up to and including the
`parse_agent_response` call: an exception either from the agent run or
propagated out of the parser. -/
def attemptOutcome (jl : List Char → Option JVal) (pf : JVal → Option ℚ)
    (order : Int) : Attempt → Except String ParseResult
  | Attempt.ok resp => parse_agent_response jl pf resp order
  | Attempt.exn msg => Except.error msg

/-- The synthetic dict returned after all retries failed
(webhook_server.py lines 136-145). -/
def gradeFallback (q : Question) (msg : String) : GradeResult :=
  let order := q.order.getD 0
  { question_id := order, order := order, points_earned := 0,
    points_possible := q.points_possible.getD 3,
    feedback := JVal.jstr "Arvostelua ei voitu suorittaa teknisen virheen vuoksi.",
    correct_answer := JVal.jstr "", status := GradeStatus.error,
    error_message := some msg }

/-- Lines 122-124: the parsed dict with `status := "success"` and
`error_message := None` added. -/
def successResult (p : ParseResult) : GradeResult :=
  { question_id := p.question_id, order := p.order,
    points_earned := p.points_earned, points_possible := p.points_possible,
    feedback := p.feedback, correct_answer := p.correct_answer,
    status := GradeStatus.success, error_message := none }

/-- The `for attempt in range(MAX_RETRIES)` loop of `grade_single_question`
(lines 81-145).  `fuel` is the number of remaining loop iterations (the
loop starts with `MAX_RETRIES`); `none` models the Python function falling
off the end of the loop and returning `None` (unreachable for
`MAX_RETRIES = 3`). -/
def gradeLoop (jl : List Char → Option JVal) (pf : JVal → Option ℚ)
    (q : Question) (env : Nat → Attempt) : Nat → Nat → Option GradeResult
  | 0, _ => none
  | fuel + 1, attempt =>
    match attemptOutcome jl pf (q.order.getD 0) (env attempt) with
    | Except.ok p => some (successResult p)
    | Except.error e =>
      if attempt < MAX_RETRIES - 1 then gradeLoop jl pf q env fuel (attempt + 1)
      else some (gradeFallback q e)

/-- `grade_single_question(question, ...)` (lines 69-145), with the agent
runs abstracted into the per-attempt environment `env`. -/
def grade_single_question (jl : List Char → Option JVal) (pf : JVal → Option ℚ)
    (q : Question) (env : Nat → Attempt) : Option GradeResult :=
  gradeLoop jl pf q env MAX_RETRIES 0

/-- Lines 252-264: the `for i, result in enumerate(results)` loop body.  A
gather entry that is an exception (`Except.error`) becomes a synthetic
error dict built from index `i` and `questions[i]`; a returned dict passes
through. -/
def handleGatherEntry (i : Nat) (q : Question) :
    Except String GradeResult → GradeResult
  | Except.ok r => r
  | Except.error msg =>
    { question_id := (i : Int), order := q.order.getD (i : Int),
      points_earned := 0, points_possible := 3,
      feedback := JVal.jstr "Tekninen virhe arvioinnissa.",
      correct_answer := JVal.jstr "", status := GradeStatus.error,
      error_message := some msg }

/-- `processed_results` (lines 251-266): one entry per gather result, in
task order.  `rs` is the list returned by
`asyncio.gather(*tasks, return_exceptions=True)`, which has one entry per
task in task order. -/
def processedResults (qs : List Question) (rs : List (Except String GradeResult)) :
    List GradeResult :=
  (qs.zip rs).enum.map fun iqr => handleGatherEntry iqr.1 iqr.2.1 iqr.2.2

/-- The sort key of line 269: `processed_results.sort(key=lambda x: x["order"])`. -/
def byOrder (a b : GradeResult) : Bool := decide (a.order ≤ b.order)

/-- Line 269: `list.sort` is a stable comparison sort; `mergeSort` is its model. -/
def sortResults (rs : List GradeResult) : List GradeResult :=
  rs.mergeSort byOrder

/-- Lines 272-276 (and again 284-285): `result["question_id"] = result["order"]`
for every result. -/
def forceQuestionId (rs : List GradeResult) : List GradeResult :=
  rs.map fun r => { r with question_id := r.order }

/-- Line 280: `expected_orders = list(range(len(processed_results)))`. -/
def expectedOrders (n : Nat) : List Int :=
  (List.range n).map Int.ofNat

/-- Lines 268-285: sort by order, force `question_id := order` for every
result, then re-force it when the realized orders are not `0..N-1`. -/
def finalResults (qs : List Question) (rs : List (Except String GradeResult)) :
    List GradeResult :=
  let sorted := sortResults (processedResults qs rs)
  let verified := forceQuestionId sorted
  if verified.map (fun r => r.order) ≠ expectedOrders verified.length then
    forceQuestionId verified
  else
    verified

/-- The `metadata` dict of the final payload (lines 293-299), without the
wall-clock fields. -/
structure Metadata where
  total_questions : Nat
  successful : Nat
  failed : Nat
deriving DecidableEq, Repr

/-- Lines 293-299. -/
def buildMetadata (qs : List Question) (results : List GradeResult) : Metadata :=
  { total_questions := qs.length,
    successful := (results.filter fun r => decide (r.status = GradeStatus.success)).length,
    failed := (results.filter fun r => decide (r.status = GradeStatus.error)).length }

/-- The `final_payload` dict.  `webhook_sent = none` models the key being
absent from the dict (it is only inserted at line 321, after the delivery
loop). -/
structure FinalPayload where
  results : List GradeResult
  metadata : Metadata
  webhook_sent : Option Bool
deriving Repr

/-- Lines 291-300: the payload as it stands when it is POSTed to the
callback URL — the `webhook_sent` key does not exist yet. -/
def postedPayload (qs : List Question) (rs : List (Except String GradeResult)) :
    FinalPayload :=
  { results := finalResults qs rs,
    metadata := buildMetadata qs (finalResults qs rs),
    webhook_sent := none }

/-- The delivery retry loop of lines 303-319.  `post attempt = true` models
the POST on that attempt returning a 2xx status (so `raise_for_status` did
not raise).  Returns the final `webhook_success` flag together with the
number of attempts executed (an instrumentation of how many loop
iterations ran). -/
def webhookLoop (post : Nat → Bool) : Nat → Nat → Bool × Nat
  | 0, attempt => (false, attempt)
  | fuel + 1, attempt =>
    if post attempt then (true, attempt + 1)
    else webhookLoop post fuel (attempt + 1)

/-- The whole delivery phase (lines 302-319), starting at attempt 0 with
`MAX_RETRIES` iterations available. -/
def send_webhook (post : Nat → Bool) : Bool × Nat :=
  webhookLoop post MAX_RETRIES 0

/-- Line 319: the delay slept between delivery attempts is the constant
`RETRY_DELAY`, independent of the attempt number. -/
def delivery_retry_delay (attempt : Nat) : Nat := RETRY_DELAY

/-- Line 133: the delay slept between grading attempts is
`RETRY_DELAY * (attempt + 1)` — growing, unlike the delivery delay. -/
def grading_retry_delay (attempt : Nat) : Nat := RETRY_DELAY * (attempt + 1)

/-- `process_all_questions(questions, callback_url)` (lines 223-322), with
the gather results `rs` and the callback endpoint behaviour `post` passed
in.  Returns the final payload: the posted payload with the
`webhook_sent` key inserted after the delivery loop (line 321). -/
def process_all_questions (qs : List Question)
    (rs : List (Except String GradeResult)) (post : Nat → Bool) : FinalPayload :=
  let payload := postedPayload qs rs
  { payload with webhook_sent := some (send_webhook post).1 }

/-- State of `asyncio.Semaphore(MAX_PARALLEL_TASKS)` (line 239) together
with the number of tasks currently inside the `async with semaphore:`
block (line 80): `avail` is the semaphore's internal counter, `inflight`
the number of admitted, not yet completed, grading calls. -/
structure SemState where
  avail : Nat
  inflight : Nat
deriving DecidableEq, Repr

/-- The initial state: a fresh `asyncio.Semaphore(MAX_PARALLEL_TASKS)`,
no task admitted. -/
def semInit : SemState :=
  { avail := MAX_PARALLEL_TASKS, inflight := 0 }

/-- The two transitions of the admission gate: `acquire` (entering
`async with semaphore:`, only enabled when the counter is positive —
otherwise the task suspends) and `release` (leaving the block, executed
unconditionally on completion, whether the body returned or raised). -/
inductive SemStep : SemState → SemState → Prop
  | acquire (s : SemState) (h : 0 < s.avail) :
      SemStep s { avail := s.avail - 1, inflight := s.inflight + 1 }
  | release (s : SemState) (h : 0 < s.inflight) :
      SemStep s { avail := s.avail + 1, inflight := s.inflight - 1 }

/-- States reachable from the freshly created semaphore by any
interleaving of task admissions and completions. -/
inductive SemReachable : SemState → Prop
  | init : SemReachable semInit
  | step {s t : SemState} : SemReachable s → SemStep s t → SemReachable t

/-! ## Helper instantiations for concrete evaluations -/

/-- A `json.loads` model that fails on every input (used for concrete
runs whose responses never reach a successful decode). -/
def jlNone : List Char → Option JVal := fun _ => none

/-- A `float(...)` model: numbers map to themselves, booleans to 0/1,
everything else raises. -/
def pfNum : JVal → Option ℚ
  | JVal.jnum q => some q
  | JVal.jbool b => some (if b then 1 else 0)
  | _ => none

/-! ## Helper lemmas -/

lemma mem_forceQuestionId_qid {rs : List GradeResult} {r : GradeResult}
    (h : r ∈ forceQuestionId rs) : r.question_id = r.order := by
  simp only [forceQuestionId, List.mem_map] at h
  obtain ⟨x, -, rfl⟩ := h
  rfl

lemma forceQuestionId_idem (rs : List GradeResult) :
    forceQuestionId (forceQuestionId rs) = forceQuestionId rs := by
  simp only [forceQuestionId, List.map_map]
  rfl

lemma mem_finalResults_qid {qs rs} {r : GradeResult}
    (h : r ∈ finalResults qs rs) : r.question_id = r.order := by
  simp only [finalResults] at h
  split at h
  · exact mem_forceQuestionId_qid h
  · exact mem_forceQuestionId_qid h

lemma process_all_questions_results (qs rs post) :
    (process_all_questions qs rs post).results = finalResults qs rs := rfl

/-! ## C2 -/

/-- C2: for every GradeOutcome in the emitted BatchResult, `question_id`
equals `order`, regardless of what identifier the grading engine's
response supplied (the gather results `rs` are arbitrary here, so in
particular the upstream `question_id` values are arbitrary). -/
theorem question_id_eq_order (qs : List Question)
    (rs : List (Except String GradeResult)) (post : Nat → Bool)
    (r : GradeResult) (h : r ∈ (process_all_questions qs rs post).results) :
    r.question_id = r.order := by
  rw [process_all_questions_results] at h
  exact mem_finalResults_qid h

/-- Witness for C2 on a concrete batch whose upstream result carries the
unrelated identifier 99. -/
theorem question_id_eq_order_witness :
    ({ question_id := 5, order := 5, points_earned := 2, points_possible := 3,
       feedback := JVal.jstr "ok", correct_answer := JVal.jstr "x",
       status := GradeStatus.success, error_message := none } : GradeResult) ∈
      (process_all_questions [{ order := some 5, points_possible := none }]
        [Except.ok { question_id := 99, order := 5, points_earned := 2,
                     points_possible := 3, feedback := JVal.jstr "ok",
                     correct_answer := JVal.jstr "x",
                     status := GradeStatus.success, error_message := none }]
        (fun _ => true)).results ∧
    (5 : Int) = 5 := by
  constructor
  · simp [process_all_questions, postedPayload, finalResults, sortResults,
      processedResults, forceQuestionId, expectedOrders, handleGatherEntry,
      List.mergeSort_singleton]
  · have := question_id_eq_order [{ order := some 5, points_possible := none }]
      [Except.ok { question_id := 99, order := 5, points_earned := 2,
                   points_possible := 3, feedback := JVal.jstr "ok",
                   correct_answer := JVal.jstr "x",
                   status := GradeStatus.success, error_message := none }]
      (fun _ => true)
      { question_id := 5, order := 5, points_earned := 2, points_possible := 3,
        feedback := JVal.jstr "ok", correct_answer := JVal.jstr "x",
        status := GradeStatus.success, error_message := none }
      (by simp [process_all_questions, postedPayload, finalResults, sortResults,
        processedResults, forceQuestionId, expectedOrders, handleGatherEntry,
        List.mergeSort_singleton])
    simpa using this

/-! ## C7 -/

/-- C7 counterexample: on a concrete batch, the payload as POSTed to the
callback URL has no `webhook_sent` key at all (`none` models key absence):
the key is only inserted into the returned payload at line 321, after the
delivery loop has finished.  This falsifies the claim that the POSTed JSON
body contains a `webhook_sent` boolean. -/
theorem posted_payload_no_webhook_sent_cex :
    (postedPayload [{ order := some 0, points_possible := none }]
      [Except.error "boom"]).webhook_sent = none := rfl

/-- C7 (amended): the JSON body POSTed to the callback URL contains the
`results` key (the final outcome list) and the `metadata` key, but not
`webhook_sent`; the `webhook_sent` boolean is added to the payload only
after delivery, so it appears in the payload returned to the caller, not
in the POSTed body. -/
theorem posted_payload_keys (qs : List Question)
    (rs : List (Except String GradeResult)) (post : Nat → Bool) :
    (postedPayload qs rs).results = finalResults qs rs ∧
    (postedPayload qs rs).metadata = buildMetadata qs (finalResults qs rs) ∧
    (postedPayload qs rs).webhook_sent = none ∧
    (process_all_questions qs rs post).results = (postedPayload qs rs).results ∧
    (process_all_questions qs rs post).metadata = (postedPayload qs rs).metadata ∧
    (process_all_questions qs rs post).webhook_sent = some (send_webhook post).1 :=
  ⟨rfl, rfl, rfl, rfl, rfl, rfl⟩

/-! ## C9 -/

lemma semReachable_sum {s : SemState} (h : SemReachable s) :
    s.avail + s.inflight = MAX_PARALLEL_TASKS := by
  induction h with
  | init => rfl
  | step _ hstep ih =>
    cases hstep with
    | acquire h => simp only at ih ⊢; omega
    | release h => simp only at ih ⊢; omega

/-- C9: in every state reachable by interleaving admissions and
completions of grading tasks, at most `MAX_PARALLEL_TASKS` grading
invocations are in-flight, and from any reachable state an in-flight task
can always release its slot (the release transition does not depend on
whether the task body succeeded or failed). -/
theorem semaphore_bound {s : SemState} (h : SemReachable s) :
    s.inflight ≤ MAX_PARALLEL_TASKS ∧
    (0 < s.inflight →
      SemStep s { avail := s.avail + 1, inflight := s.inflight - 1 }) := by
  refine ⟨?_, fun hpos => SemStep.release s hpos⟩
  have := semReachable_sum h
  omega

/-- Witness for C9: the state after two admissions and one completion is
reachable, and the theorem applies to it. -/
theorem semaphore_bound_witness :
    SemReachable { avail := 3, inflight := 1 } ∧
    ({ avail := 3, inflight := 1 } : SemState).inflight ≤ MAX_PARALLEL_TASKS := by
  have h1 : SemReachable { avail := 3, inflight := 1 } := by
    have h0 : SemReachable semInit := SemReachable.init
    have hstep : SemStep semInit { avail := 3, inflight := 1 } := by
      have := SemStep.acquire semInit (by simp [semInit, MAX_PARALLEL_TASKS])
      simpa [semInit, MAX_PARALLEL_TASKS] using this
    exact SemReachable.step h0 hstep
  exact ⟨h1, (semaphore_bound h1).1⟩

/-! ## C6 -/

lemma webhookLoop_snd_le (post : Nat → Bool) :
    ∀ fuel attempt, (webhookLoop post fuel attempt).2 ≤ attempt + fuel := by
  intro fuel
  induction fuel with
  | zero => intro attempt; simp [webhookLoop]
  | succ n ih =>
    intro attempt
    rw [webhookLoop]
    by_cases h : post attempt
    · simp only [h, if_true]
      omega
    · simp only [h, if_false, Bool.false_eq_true]
      calc (webhookLoop post n (attempt + 1)).2 ≤ (attempt + 1) + n := ih (attempt + 1)
        _ = attempt + (n + 1) := by omega

lemma webhookLoop_fst_iff (post : Nat → Bool) :
    ∀ fuel attempt, (webhookLoop post fuel attempt).1 = true ↔
      ∃ i, attempt ≤ i ∧ i < attempt + fuel ∧ post i = true := by
  intro fuel
  induction fuel with
  | zero =>
    intro attempt
    simp only [webhookLoop]
    constructor
    · intro h; simp at h
    · rintro ⟨i, h1, h2, -⟩; omega
  | succ n ih =>
    intro attempt
    rw [webhookLoop]
    by_cases h : post attempt
    · simp only [h, if_true]
      constructor
      · intro _; exact ⟨attempt, le_refl _, by omega, h⟩
      · intro _; trivial
    · simp only [h, if_false, Bool.false_eq_true, ih (attempt + 1)]
      constructor
      · rintro ⟨i, h1, h2, h3⟩; exact ⟨i, by omega, by omega, h3⟩
      · rintro ⟨i, h1, h2, h3⟩
        refine ⟨i, ?_, by omega, h3⟩
        rcases Nat.eq_or_lt_of_le h1 with rfl | hlt
        · rw [h3] at h; exact absurd rfl h
        · omega

lemma webhookLoop_first_success (post : Nat → Bool) :
    ∀ fuel attempt j, attempt ≤ j → j < attempt + fuel → post j = true →
      (∀ k, attempt ≤ k → k < j → post k = false) →
      webhookLoop post fuel attempt = (true, j + 1) := by
  intro fuel
  induction fuel with
  | zero => intro attempt j h1 h2; omega
  | succ n ih =>
    intro attempt j h1 h2 hj hmin
    rw [webhookLoop]
    rcases Nat.eq_or_lt_of_le h1 with rfl | hlt
    · simp [hj]
    · have ha : post attempt = false := hmin attempt (le_refl _) hlt
      simp only [ha, if_false, Bool.false_eq_true]
      exact ih (attempt + 1) j hlt (by omega) hj
        (fun k hk1 hk2 => hmin k (by omega) hk2)

lemma webhookLoop_all_fail (post : Nat → Bool) :
    ∀ fuel attempt, (∀ i, attempt ≤ i → i < attempt + fuel → post i = false) →
      webhookLoop post fuel attempt = (false, attempt + fuel) := by
  intro fuel
  induction fuel with
  | zero => intro attempt _; simp [webhookLoop]
  | succ n ih =>
    intro attempt hall
    rw [webhookLoop]
    have ha : post attempt = false := hall attempt (le_refl _) (by omega)
    simp only [ha, if_false, Bool.false_eq_true]
    rw [ih (attempt + 1) (fun i h1 h2 => hall i (by omega) (by omega))]
    have : attempt + 1 + n = attempt + (n + 1) := by omega
    rw [this]


/-- C6: the Delivery Agent makes at most `MAX_RETRIES` attempts with a
fixed (non-growing) delay between attempts, reports `true` iff some
attempt received a 2xx response, stops at the first success, returns
`false` after exhausting all retries, and the resulting flag is recorded
in the returned payload's `webhook_sent` field.  The loop is a total
function, so it never raises past its boundary. -/
theorem delivery_retries (qs : List Question)
    (rs : List (Except String GradeResult)) (post : Nat → Bool) :
    (send_webhook post).2 ≤ MAX_RETRIES ∧
    ((send_webhook post).1 = true ↔ ∃ i, i < MAX_RETRIES ∧ post i = true) ∧
    (∀ j, j < MAX_RETRIES → post j = true → (∀ k, k < j → post k = false) →
      (send_webhook post).1 = true ∧ (send_webhook post).2 = j + 1) ∧
    ((∀ i, i < MAX_RETRIES → post i = false) →
      (send_webhook post).1 = false ∧ (send_webhook post).2 = MAX_RETRIES) ∧
    (process_all_questions qs rs post).webhook_sent = some (send_webhook post).1 ∧
    (∀ a b, delivery_retry_delay a = delivery_retry_delay b) := by
  refine ⟨?_, ?_, ?_, ?_, rfl, fun a b => rfl⟩
  · have := webhookLoop_snd_le post MAX_RETRIES 0
    simpa [send_webhook] using this
  · rw [send_webhook, webhookLoop_fst_iff post MAX_RETRIES 0]
    constructor
    · rintro ⟨i, -, h2, h3⟩; exact ⟨i, by omega, h3⟩
    · rintro ⟨i, h1, h3⟩; exact ⟨i, by omega, by omega, h3⟩
  · intro j hj hpj hmin
    rw [send_webhook,
      webhookLoop_first_success post MAX_RETRIES 0 j (by omega) (by omega) hpj
        (fun k _ hk => hmin k hk)]
    exact ⟨rfl, rfl⟩
  · intro hall
    rw [send_webhook, webhookLoop_all_fail post MAX_RETRIES 0
      (fun i _ h2 => hall i (by omega))]
    exact ⟨rfl, rfl⟩

/-- Witness for C6 instantiated at an endpoint that fails twice and then
succeeds: delivery reports success after exactly 3 attempts. -/
theorem delivery_retries_witness :
    (2 < MAX_RETRIES ∧ (fun n => decide (n ≥ 2)) 2 = true) ∧
    (send_webhook (fun n => decide (n ≥ 2))).1 = true ∧
    (send_webhook (fun n => decide (n ≥ 2))).2 = 2 + 1 := by
  refine ⟨⟨by decide, by decide⟩, ?_⟩
  exact (delivery_retries [] [] (fun n => decide (n ≥ 2))).2.2.1 2 (by decide)
    (by decide) (by intro k hk; interval_cases k <;> decide)

/-! ## The grading retry loop -/

lemma gradeLoop_succ (jl : List Char → Option JVal) (pf : JVal → Option ℚ)
    (q : Question) (env : Nat → Attempt) (fuel attempt : Nat) :
    gradeLoop jl pf q env (fuel + 1) attempt =
      match attemptOutcome jl pf (q.order.getD 0) (env attempt) with
      | Except.ok p => some (successResult p)
      | Except.error e =>
        if attempt < MAX_RETRIES - 1 then gradeLoop jl pf q env fuel (attempt + 1)
        else some (gradeFallback q e) := rfl

/-! ## C5 -/

/-- C5: when every one of the `MAX_RETRIES` attempts fails,
`grade_single_question` does not raise — it returns the synthetic
error-status outcome with `points_earned = 0`, `points_possible` taken
from the question (default 3), the fixed localized fallback feedback, and
the last attempt's error message. -/
theorem retry_exhaustion (jl : List Char → Option JVal) (pf : JVal → Option ℚ)
    (q : Question) (env : Nat → Attempt) (msgs : Nat → String)
    (hfail : ∀ i, i < MAX_RETRIES →
      attemptOutcome jl pf (q.order.getD 0) (env i) = Except.error (msgs i)) :
    grade_single_question jl pf q env =
      some { question_id := q.order.getD 0, order := q.order.getD 0,
             points_earned := 0, points_possible := q.points_possible.getD 3,
             feedback := JVal.jstr "Arvostelua ei voitu suorittaa teknisen virheen vuoksi.",
             correct_answer := JVal.jstr "", status := GradeStatus.error,
             error_message := some (msgs (MAX_RETRIES - 1)) } := by
  have h0 := hfail 0 (by norm_num [MAX_RETRIES])
  have h1 := hfail 1 (by norm_num [MAX_RETRIES])
  have h2 := hfail 2 (by norm_num [MAX_RETRIES])
  show gradeLoop jl pf q env (2 + 1) 0 = _
  rw [gradeLoop_succ, h0]
  simp only [show (0 < MAX_RETRIES - 1) = True from by simp [MAX_RETRIES], if_true]
  rw [show (0 : Nat) + 1 = 1 + 1 - 1 from rfl]
  rw [show (2 : Nat) = 1 + 1 from rfl, gradeLoop_succ,
    show (1 + 1 - 1 : Nat) = 1 from rfl, h1]
  simp only [show (1 < MAX_RETRIES - 1) = True from by simp [MAX_RETRIES], if_true]
  rw [show (1 : Nat) = 0 + 1 from rfl, gradeLoop_succ,
    show (0 + 1 + 1 : Nat) = 2 from rfl, h2]
  simp only [show (2 < MAX_RETRIES - 1) = False from by simp [MAX_RETRIES], if_false]
  rfl

/-- Witness for C5: a question with declared `points_possible = 5` whose
three attempts all raise. -/
theorem retry_exhaustion_witness :
    (∀ i, i < MAX_RETRIES →
      attemptOutcome jlNone pfNum
        (({ order := some 7, points_possible := some 5 } : Question).order.getD 0)
        ((fun _ => Attempt.exn "boom") i) = Except.error ((fun _ => "boom") i)) ∧
    grade_single_question jlNone pfNum { order := some 7, points_possible := some 5 }
        (fun _ => Attempt.exn "boom") =
      some { question_id := 7, order := 7, points_earned := 0, points_possible := 5,
             feedback := JVal.jstr "Arvostelua ei voitu suorittaa teknisen virheen vuoksi.",
             correct_answer := JVal.jstr "", status := GradeStatus.error,
             error_message := some "boom" } :=
  ⟨fun _ _ => rfl,
   retry_exhaustion jlNone pfNum { order := some 7, points_possible := some 5 }
     (fun _ => Attempt.exn "boom") (fun _ => "boom") (fun _ _ => rfl)⟩

/-! ## C4 -/

/-- C4 counterexample: the grading engine answers with a text containing
no JSON span at all (`"hello"`).  The claim says this must fail with a
`MalformedResponse` error and trigger another attempt; instead the very
first attempt succeeds with a `status = "success"` outcome built from the
parser's default dict (0/3 points, fallback feedback), and no retry
happens. -/
theorem malformed_no_retry_cex :
    grade_single_question jlNone pfNum { order := some 0, points_possible := none }
      (fun _ => Attempt.ok "hello".toList) =
      some { question_id := 0, order := 0, points_earned := 0, points_possible := 3,
             feedback := JVal.jstr "Vastauksen käsittelyssä tapahtui virhe.",
             correct_answer := JVal.jstr "", status := GradeStatus.success,
             error_message := none } := rfl

/-- C4 (amended): for every response text in which no `{...}` span is
found, or whose extracted span fails to decode, `parse_agent_response`
does not fail — it returns the default parsed dict (0/3 points, localized
fallback feedback, empty `correct_answer`) — and the retry loop marks
this result `status = "success"` on the same attempt, performing no
further attempt (the behaviour is not that of a transport failure). -/
theorem malformed_response_default (jl : List Char → Option JVal)
    (pf : JVal → Option ℚ) (q : Question) (env : Nat → Attempt)
    (resp : List Char)
    (hspan : ¬(pyFind (pyStrip resp) '{' ≠ -1 ∧
        pyRFind (pyStrip resp) '}' + 1 > pyFind (pyStrip resp) '{') ∨
      jl (pySlice (pyStrip resp) (pyFind (pyStrip resp) '{')
        (pyRFind (pyStrip resp) '}' + 1)) = none)
    (henv : env 0 = Attempt.ok resp) :
    parse_agent_response jl pf resp (q.order.getD 0) =
      Except.ok (parseDefault (q.order.getD 0)) ∧
    grade_single_question jl pf q env =
      some (successResult (parseDefault (q.order.getD 0))) := by
  have hparse : ∀ o : Int,
      parse_agent_response jl pf resp o = Except.ok (parseDefault o) := by
    intro o
    simp only [parse_agent_response]
    rcases hspan with h | h
    · rw [if_neg h]
    · by_cases hc : (pyFind (pyStrip resp) '{' ≠ -1 ∧
          pyRFind (pyStrip resp) '}' + 1 > pyFind (pyStrip resp) '{')
      · rw [if_pos hc]
        simp only [decodeSpan, h]
      · rw [if_neg hc]
  refine ⟨hparse _, ?_⟩
  show gradeLoop jl pf q env (2 + 1) 0 = _
  rw [gradeLoop_succ, show attemptOutcome jl pf (q.order.getD 0) (env 0) =
    Except.ok (parseDefault (q.order.getD 0)) from by rw [henv]; exact hparse _]

/-- Witness for C4's amended statement: the decoder fails on every span
(`jlNone`), the first attempt returns `"hello"`, and the outcome is the
success-status default. -/
theorem malformed_response_default_witness :
    (¬(pyFind (pyStrip "hello".toList) '{' ≠ -1 ∧
        pyRFind (pyStrip "hello".toList) '}' + 1 > pyFind (pyStrip "hello".toList) '{') ∨
      jlNone (pySlice (pyStrip "hello".toList) (pyFind (pyStrip "hello".toList) '{')
        (pyRFind (pyStrip "hello".toList) '}' + 1)) = none) ∧
    (parse_agent_response jlNone pfNum "hello".toList 0 = Except.ok (parseDefault 0) ∧
     grade_single_question jlNone pfNum { order := some 0, points_possible := none }
        (fun _ => Attempt.ok "hello".toList) =
      some (successResult (parseDefault 0))) :=
  ⟨Or.inr rfl,
   malformed_response_default jlNone pfNum { order := some 0, points_possible := none }
     (fun _ => Attempt.ok "hello".toList) "hello".toList (Or.inr rfl) rfl⟩

/-! ## C10 -/

lemma decodeSpan_ok_fields {jl : List Char → Option JVal} {pf : JVal → Option ℚ}
    {s : List Char} {order : Int} {p : ParseResult}
    (h : decodeSpan jl pf s order = Except.ok p) :
    p.question_id = order ∧ p.order = order := by
  unfold decodeSpan at h
  rcases hjl : jl s with - | v
  · rw [hjl] at h
    cases h
    exact ⟨rfl, rfl⟩
  · rw [hjl] at h
    cases v with
    | jobj fields =>
      dsimp only at h
      rcases hpe : pf ((jlookup fields "points_earned").getD (JVal.jnum 0)) with - | pe <;>
        rcases hpp : pf ((jlookup fields "points_possible").getD (JVal.jnum 3)) with - | pp <;>
        rw [hpe, hpp] at h <;> cases h
      exact ⟨rfl, rfl⟩
    | jnum n => cases h
    | jstr s => cases h
    | jbool b => cases h
    | jnull => cases h
    | jarr elems => cases h

lemma parse_ok_fields {jl : List Char → Option JVal} {pf : JVal → Option ℚ}
    {resp : List Char} {order : Int} {p : ParseResult}
    (h : parse_agent_response jl pf resp order = Except.ok p) :
    p.question_id = order ∧ p.order = order := by
  simp only [parse_agent_response] at h
  split at h
  · exact decodeSpan_ok_fields h
  · cases h
    exact ⟨rfl, rfl⟩

lemma gradeLoop_some_fields {jl : List Char → Option JVal} {pf : JVal → Option ℚ}
    {q : Question} {env : Nat → Attempt} {r : GradeResult} :
    ∀ {fuel attempt : Nat}, gradeLoop jl pf q env fuel attempt = some r →
      r.question_id = q.order.getD 0 ∧ r.order = q.order.getD 0 := by
  intro fuel
  induction fuel with
  | zero => intro attempt h; cases h
  | succ n ih =>
    intro attempt h
    rw [gradeLoop_succ] at h
    cases ha : attemptOutcome jl pf (q.order.getD 0) (env attempt) with
    | ok p =>
      rw [ha] at h
      dsimp only at h
      cases h
      cases henv : env attempt with
      | ok resp =>
        rw [henv] at ha
        exact parse_ok_fields ha
      | exn msg =>
        rw [henv] at ha
        cases ha
    | error e =>
      rw [ha] at h
      dsimp only at h
      split at h
      · exact ih h
      · cases h
        exact ⟨rfl, rfl⟩

lemma grade_some (jl : List Char → Option JVal) (pf : JVal → Option ℚ)
    (q : Question) (env : Nat → Attempt) :
    ∃ r, grade_single_question jl pf q env = some r := by
  show ∃ r, gradeLoop jl pf q env (2 + 1) 0 = some r
  rw [gradeLoop_succ]
  rcases h0 : attemptOutcome jl pf (q.order.getD 0) (env 0) with e0 | p0
  · simp only [show (0 < MAX_RETRIES - 1) = True from by simp [MAX_RETRIES], if_true]
    rw [show (2 : Nat) = 1 + 1 from rfl, gradeLoop_succ]
    rcases h1 : attemptOutcome jl pf (q.order.getD 0) (env (0 + 1)) with e1 | p1
    · simp only [show (0 + 1 < MAX_RETRIES - 1) = True from by simp [MAX_RETRIES], if_true]
      rw [show (1 : Nat) = 0 + 1 from rfl, gradeLoop_succ]
      rcases h2 : attemptOutcome jl pf (q.order.getD 0) (env (0 + 1 + 1)) with e2 | p2
      · simp only [show (0 + 1 + 1 < MAX_RETRIES - 1) = False from by simp [MAX_RETRIES],
          if_false]
        exact ⟨_, rfl⟩
      · exact ⟨_, rfl⟩
    · exact ⟨_, rfl⟩
  · exact ⟨_, rfl⟩

/-- C10: a question dict without an `"order"` key is still graded — the
pipeline substitutes order 0 — so its outcome has `order = 0` and
`question_id = 0` and is indistinguishable by these keys from the outcome
of a genuine order-0 question in the same batch. -/
theorem missing_order_collides (jl : List Char → Option JVal) (pf : JVal → Option ℚ)
    (q q0 : Question) (env env0 : Nat → Attempt)
    (hq : q.order = none) (hq0 : q0.order = some 0) :
    ∃ r r0, grade_single_question jl pf q env = some r ∧
      grade_single_question jl pf q0 env0 = some r0 ∧
      r.order = 0 ∧ r.question_id = 0 ∧ r0.order = 0 ∧ r0.question_id = 0 := by
  obtain ⟨r, hr⟩ := grade_some jl pf q env
  obtain ⟨r0, hr0⟩ := grade_some jl pf q0 env0
  have hr' : gradeLoop jl pf q env MAX_RETRIES 0 = some r := hr
  have hr0' : gradeLoop jl pf q0 env0 MAX_RETRIES 0 = some r0 := hr0
  have hf := gradeLoop_some_fields hr'
  have hf0 := gradeLoop_some_fields hr0'
  rw [hq] at hf
  rw [hq0] at hf0
  exact ⟨r, r0, hr, hr0, hf.2, hf.1, hf0.2, hf0.1⟩

/-- Witness for C10: a batch containing a question with no `"order"` key
and a genuine order-0 question. -/
theorem missing_order_collides_witness :
    (({ order := none, points_possible := none } : Question).order = none ∧
     ({ order := some 0, points_possible := none } : Question).order = some 0) ∧
    (∃ r r0, grade_single_question jlNone pfNum { order := none, points_possible := none }
        (fun _ => Attempt.exn "down") = some r ∧
      grade_single_question jlNone pfNum { order := some 0, points_possible := none }
        (fun _ => Attempt.exn "down") = some r0 ∧
      r.order = 0 ∧ r.question_id = 0 ∧ r0.order = 0 ∧ r0.question_id = 0) :=
  ⟨⟨rfl, rfl⟩,
   missing_order_collides jlNone pfNum
     { order := none, points_possible := none }
     { order := some 0, points_possible := none }
     (fun _ => Attempt.exn "down") (fun _ => Attempt.exn "down") rfl rfl⟩

/-! ## C1 -/

lemma length_finalResults (qs : List Question) (rs : List (Except String GradeResult)) :
    (finalResults qs rs).length = min qs.length rs.length := by
  simp only [finalResults]
  split <;> simp [forceQuestionId, sortResults, processedResults]

lemma processedResults_getElem (qs : List Question) (rs : List (Except String GradeResult))
    (i : Nat) (hq : i < qs.length) (hr : i < rs.length)
    (hip : i < (processedResults qs rs).length) :
    (processedResults qs rs)[i] =
      handleGatherEntry i (qs.get ⟨i, hq⟩) (rs.get ⟨i, hr⟩) := by
  simp only [processedResults] at hip ⊢
  rw [List.getElem_map]
  have hie : i < ((qs.zip rs).enum).length := by simpa using hip
  have hiz : i < (qs.zip rs).length := by simpa using hip
  simp [List.enum_eq_enumFrom, List.getElem_enumFrom, List.getElem_zip,
    List.get_eq_getElem]

lemma errorEntry_mem_finalResults (qs : List Question)
    (rs : List (Except String GradeResult)) (i : Nat) (msg : String)
    (hq : i < qs.length) (hr : i < rs.length)
    (he : rs.get ⟨i, hr⟩ = Except.error msg) :
    ({ question_id := (qs.get ⟨i, hq⟩).order.getD (i : Int),
       order := (qs.get ⟨i, hq⟩).order.getD (i : Int),
       points_earned := 0, points_possible := 3,
       feedback := JVal.jstr "Tekninen virhe arvioinnissa.",
       correct_answer := JVal.jstr "", status := GradeStatus.error,
       error_message := some msg } : GradeResult) ∈ finalResults qs rs := by
  have hip : i < (processedResults qs rs).length := by
    simp [processedResults]
    omega
  have hval : (processedResults qs rs)[i] =
      handleGatherEntry i (qs.get ⟨i, hq⟩) (Except.error msg) := by
    rw [processedResults_getElem qs rs i hq hr hip, he]
  have hmem : handleGatherEntry i (qs.get ⟨i, hq⟩) (Except.error msg) ∈
      processedResults qs rs := by
    rw [← hval]
    exact List.getElem_mem hip
  have hmem2 : handleGatherEntry i (qs.get ⟨i, hq⟩) (Except.error msg) ∈
      sortResults (processedResults qs rs) := by
    rw [sortResults, List.mem_mergeSort]
    exact hmem
  simp only [finalResults]
  split
  · rw [forceQuestionId_idem, forceQuestionId]
    exact List.mem_map.mpr ⟨_, hmem2, rfl⟩
  · rw [forceQuestionId]
    exact List.mem_map.mpr ⟨_, hmem2, rfl⟩

/-- C1: for every non-empty batch of `N` questions, the orchestrator emits
exactly `N` outcomes (here `rs` is the gather result, which `asyncio.gather`
guarantees to have one entry per task, `hlen`); moreover a question whose
task failed unrecoverably (`rs.get i = Except.error msg`) is not dropped:
it contributes an error-status outcome to the emitted sequence. -/
theorem batch_length_preserved (qs : List Question)
    (rs : List (Except String GradeResult)) (post : Nat → Bool)
    (hne : qs ≠ []) (hlen : rs.length = qs.length) :
    (process_all_questions qs rs post).results.length = qs.length ∧
    ∀ (i : Nat) (hq : i < qs.length) (hr : i < rs.length) (msg : String),
      rs.get ⟨i, hr⟩ = Except.error msg →
      ({ question_id := (qs.get ⟨i, hq⟩).order.getD (i : Int),
         order := (qs.get ⟨i, hq⟩).order.getD (i : Int),
         points_earned := 0, points_possible := 3,
         feedback := JVal.jstr "Tekninen virhe arvioinnissa.",
         correct_answer := JVal.jstr "", status := GradeStatus.error,
         error_message := some msg } : GradeResult) ∈
        (process_all_questions qs rs post).results := by
  constructor
  · rw [process_all_questions_results, length_finalResults, hlen, min_self]
  · intro i hq hr msg he
    rw [process_all_questions_results]
    exact errorEntry_mem_finalResults qs rs i msg hq hr he

/-- Witness for C1: a 2-question batch in which question 1's task raised. -/
theorem batch_length_preserved_witness :
    (([{ order := some 0, points_possible := none },
       { order := some 1, points_possible := none }] : List Question) ≠ [] ∧
     ([Except.ok { question_id := 0, order := 0, points_earned := 3,
                   points_possible := 3, feedback := JVal.jstr "hyvä",
                   correct_answer := JVal.jstr "", status := GradeStatus.success,
                   error_message := none },
       Except.error "crash"] :
        List (Except String GradeResult)).length = 2) ∧
    (process_all_questions
      [{ order := some 0, points_possible := none },
       { order := some 1, points_possible := none }]
      [Except.ok { question_id := 0, order := 0, points_earned := 3,
                   points_possible := 3, feedback := JVal.jstr "hyvä",
                   correct_answer := JVal.jstr "", status := GradeStatus.success,
                   error_message := none },
       Except.error "crash"] (fun _ => true)).results.length = 2 :=
  ⟨⟨by simp, rfl⟩,
   (batch_length_preserved
     [{ order := some 0, points_possible := none },
      { order := some 1, points_possible := none }]
     [Except.ok { question_id := 0, order := 0, points_earned := 3,
                  points_possible := 3, feedback := JVal.jstr "hyvä",
                  correct_answer := JVal.jstr "", status := GradeStatus.success,
                  error_message := none },
      Except.error "crash"] (fun _ => true) (by simp) rfl).1⟩

/-! ## C3 -/

lemma map_order_forceQuestionId (rs : List GradeResult) :
    (forceQuestionId rs).map (fun r => r.order) = rs.map (fun r => r.order) := by
  simp only [forceQuestionId, List.map_map]
  rfl

lemma map_order_finalResults (qs : List Question)
    (rs : List (Except String GradeResult)) :
    (finalResults qs rs).map (fun r => r.order) =
      (sortResults (processedResults qs rs)).map (fun r => r.order) := by
  simp only [finalResults]
  split
  · rw [map_order_forceQuestionId, map_order_forceQuestionId]
  · rw [map_order_forceQuestionId]

lemma byOrder_trans : ∀ a b c : GradeResult, byOrder a b → byOrder b c → byOrder a c := by
  intro a b c hab hbc
  simp only [byOrder, decide_eq_true_eq] at hab hbc ⊢
  omega

lemma byOrder_total : ∀ a b : GradeResult, byOrder a b || byOrder b a := by
  intro a b
  simp only [byOrder]
  rcases le_total a.order b.order with h | h <;> simp [h]

lemma expectedOrders_sorted (n : Nat) : (expectedOrders n).Sorted (· ≤ ·) := by
  rw [expectedOrders]
  exact (List.pairwise_map).mpr
    ((List.sorted_le_range n).imp fun h => Int.ofNat_le.mpr h)

/-- C3: the emitted outcome sequence is sorted ascending by `order`
(whatever the completion order encoded in `rs` was), and when the realized
orders of the collected outcomes form exactly the set `{0, ..., N-1}`, the
emitted order sequence is exactly `[0, ..., N-1]`. -/
theorem outcomes_sorted_cover (qs : List Question)
    (rs : List (Except String GradeResult)) (post : Nat → Bool)
    (hlen : rs.length = qs.length) :
    ((process_all_questions qs rs post).results.map (fun r => r.order)).Sorted (· ≤ ·) ∧
    (List.Perm ((processedResults qs rs).map (fun r => r.order))
        (expectedOrders qs.length) →
      (process_all_questions qs rs post).results.map (fun r => r.order) =
        expectedOrders qs.length) := by
  have hmap : (process_all_questions qs rs post).results.map (fun r => r.order) =
      (sortResults (processedResults qs rs)).map (fun r => r.order) := by
    rw [process_all_questions_results, map_order_finalResults]
  have hsorted : ((sortResults (processedResults qs rs)).map
      (fun r => r.order)).Sorted (· ≤ ·) := by
    have hp := List.sorted_mergeSort byOrder_trans byOrder_total
      (processedResults qs rs)
    exact (List.pairwise_map).mpr
      (hp.imp fun h => by simpa [byOrder, decide_eq_true_eq] using h)
  constructor
  · rw [hmap]
    exact hsorted
  · intro hperm
    rw [hmap]
    have hperm2 : List.Perm ((sortResults (processedResults qs rs)).map
        (fun r => r.order)) (expectedOrders qs.length) :=
      ((List.mergeSort_perm (processedResults qs rs) byOrder).map
        (fun r => r.order)).trans hperm
    exact List.eq_of_perm_of_sorted hperm2 hsorted (expectedOrders_sorted qs.length)

/-- Witness for C3: a 2-question batch whose tasks completed out of order
(the gather list carries orders `[1, 0]`). -/
theorem outcomes_sorted_cover_witness :
    (([Except.ok { question_id := 1, order := 1, points_earned := 3,
                   points_possible := 3, feedback := JVal.jstr "",
                   correct_answer := JVal.jstr "", status := GradeStatus.success,
                   error_message := none },
       Except.ok { question_id := 0, order := 0, points_earned := 2,
                   points_possible := 3, feedback := JVal.jstr "",
                   correct_answer := JVal.jstr "", status := GradeStatus.success,
                   error_message := none }] :
        List (Except String GradeResult)).length =
      ([{ order := some 1, points_possible := none },
        { order := some 0, points_possible := none }] : List Question).length) ∧
    ((process_all_questions
        [{ order := some 1, points_possible := none },
         { order := some 0, points_possible := none }]
        [Except.ok { question_id := 1, order := 1, points_earned := 3,
                     points_possible := 3, feedback := JVal.jstr "",
                     correct_answer := JVal.jstr "", status := GradeStatus.success,
                     error_message := none },
         Except.ok { question_id := 0, order := 0, points_earned := 2,
                     points_possible := 3, feedback := JVal.jstr "",
                     correct_answer := JVal.jstr "", status := GradeStatus.success,
                     error_message := none }] (fun _ => true)).results.map
      (fun r => r.order)).Sorted (· ≤ ·) :=
  ⟨rfl,
   (outcomes_sorted_cover
     [{ order := some 1, points_possible := none },
      { order := some 0, points_possible := none }]
     [Except.ok { question_id := 1, order := 1, points_earned := 3,
                  points_possible := 3, feedback := JVal.jstr "",
                  correct_answer := JVal.jstr "", status := GradeStatus.success,
                  error_message := none },
      Except.ok { question_id := 0, order := 0, points_earned := 2,
                  points_possible := 3, feedback := JVal.jstr "",
                  correct_answer := JVal.jstr "", status := GradeStatus.success,
                  error_message := none }] (fun _ => true) rfl).1⟩

/-! ## C8 -/

lemma dropWhile_append_of_head {p : Char → Bool} {a b : List Char} {c : Char}
    (hb : b.head? = some c) (hc : p c = false) :
    (a ++ b).dropWhile p = a.dropWhile p ++ b := by
  induction a with
  | nil =>
    cases b with
    | nil => simp at hb
    | cons x xs =>
      simp only [List.head?_cons, Option.some.injEq] at hb
      subst hb
      simp [List.dropWhile_cons, hc]
  | cons x xs ih =>
    simp only [List.cons_append, List.dropWhile_cons]
    by_cases hx : p x
    · simp only [hx, if_true]
      exact ih
    · simp [hx]

lemma findIdx_append_of_head {a b : List Char} {c : Char}
    (ha : c ∉ a) (hb : b.head? = some c) :
    ∀ i, (a ++ b).findIdx? (· == c) i = some (a.length + i) := by
  induction a with
  | nil =>
    intro i
    cases b with
    | nil => simp at hb
    | cons x xs =>
      simp only [List.head?_cons, Option.some.injEq] at hb
      subst hb
      simp
  | cons x xs ih =>
    intro i
    have hx : (x == c) = false := by
      simp only [beq_eq_false_iff_ne, ne_eq]
      intro hxc
      exact ha (hxc ▸ List.mem_cons_self x xs)
    simp only [List.cons_append, List.findIdx?_cons, hx, Bool.false_eq_true, if_false]
    rw [ih (fun h => ha (List.mem_cons_of_mem x h)) (i + 1)]
    congr 1
    simp only [List.length_cons]
    omega

lemma pyStrip_concat (l obj t : List Char)
    (h1 : obj.head? = some '{') (h2 : obj.getLast? = some '}') :
    pyStrip (l ++ obj ++ t) =
      l.dropWhile Char.isWhitespace ++ obj ++
        (t.reverse.dropWhile Char.isWhitespace).reverse := by
  have hws1 : Char.isWhitespace '{' = false := by decide
  have hws2 : Char.isWhitespace '}' = false := by decide
  have hobjt : (obj ++ t).head? = some '{' := by
    cases obj with
    | nil => simp at h1
    | cons x xs =>
      simp only [List.head?_cons, Option.some.injEq] at h1
      simp [h1]
  unfold pyStrip
  rw [List.append_assoc, dropWhile_append_of_head hobjt hws1, ← List.append_assoc]
  have hrev : (l.dropWhile Char.isWhitespace ++ obj ++ t).reverse =
      t.reverse ++ (obj.reverse ++ (l.dropWhile Char.isWhitespace).reverse) := by
    simp [List.reverse_append]
  rw [hrev]
  have hrevhead : (obj.reverse ++ (l.dropWhile Char.isWhitespace).reverse).head? =
      some '}' := by
    cases hor : obj.reverse with
    | nil =>
      rw [List.reverse_eq_nil_iff] at hor
      rw [hor] at h2
      simp at h2
    | cons y ys =>
      have : obj.reverse.head? = some '}' := by rw [List.head?_reverse]; exact h2
      rw [hor] at this
      simp only [List.head?_cons, Option.some.injEq] at this
      simp [hor, this]
  rw [dropWhile_append_of_head hrevhead hws2]
  simp [List.reverse_append]

lemma spanExtract_eval (l2 obj t2 : List Char)
    (hl : '{' ∉ l2) (ht : '}' ∉ t2)
    (h1 : obj.head? = some '{') (h2 : obj.getLast? = some '}') :
    pyFind (l2 ++ obj ++ t2) '{' = (l2.length : Int) ∧
    pyRFind (l2 ++ obj ++ t2) '}' = (l2.length : Int) + obj.length - 1 ∧
    pySlice (l2 ++ obj ++ t2) (l2.length : Int)
      ((l2.length : Int) + obj.length - 1 + 1) = obj := by
  have hobjt : (obj ++ t2).head? = some '{' := by
    cases obj with
    | nil => simp at h1
    | cons x xs =>
      simp only [List.head?_cons, Option.some.injEq] at h1
      simp [h1]
  have hrevhead : (obj.reverse ++ l2.reverse).head? = some '}' := by
    cases hor : obj.reverse with
    | nil =>
      rw [List.reverse_eq_nil_iff] at hor
      rw [hor] at h2
      simp at h2
    | cons y ys =>
      have : obj.reverse.head? = some '}' := by rw [List.head?_reverse]; exact h2
      rw [hor] at this
      simp only [List.head?_cons, Option.some.injEq] at this
      simp [hor, this]
  refine ⟨?_, ?_, ?_⟩
  · unfold pyFind
    rw [List.append_assoc, findIdx_append_of_head hl hobjt 0]
    simp
  · unfold pyRFind
    have hrev : (l2 ++ obj ++ t2).reverse =
        t2.reverse ++ (obj.reverse ++ l2.reverse) := by
      simp [List.reverse_append]
    rw [hrev, findIdx_append_of_head (fun h => ht (List.mem_reverse.mp h)) hrevhead 0]
    simp only [List.length_append, List.length_reverse, Nat.add_zero]
    push_cast
    omega
  · unfold pySlice
    have hb : ((l2.length : Int) + obj.length - 1 + 1).toNat = l2.length + obj.length := by
      omega
    have ha : ((l2.length : Int)).toNat = l2.length := by omega
    rw [hb, ha]
    rw [List.take_left' (by simp : (l2 ++ obj).length = l2.length + obj.length)]
    exact List.drop_left l2 obj

lemma parse_agent_response_concat (jl : List Char → Option JVal)
    (pf : JVal → Option ℚ) (l obj t : List Char) (order : Int)
    (hl : '{' ∉ l) (ht : '}' ∉ t)
    (h1 : obj.head? = some '{') (h2 : obj.getLast? = some '}') :
    parse_agent_response jl pf (l ++ obj ++ t) order = decodeSpan jl pf obj order := by
  have hobj : obj ≠ [] := by
    intro h
    rw [h] at h1
    simp at h1
  have hlen : 1 ≤ obj.length := List.length_pos.mpr hobj
  have hl2 : '{' ∉ l.dropWhile Char.isWhitespace :=
    fun h => hl (List.Sublist.subset (List.dropWhile_sublist _) h)
  have ht2 : '}' ∉ (t.reverse.dropWhile Char.isWhitespace).reverse := by
    intro h
    exact ht (List.mem_reverse.mp
      (List.Sublist.subset (List.dropWhile_sublist _) (List.mem_reverse.mp h)))
  obtain ⟨hf, hr, hs⟩ := spanExtract_eval (l.dropWhile Char.isWhitespace) obj
    ((t.reverse.dropWhile Char.isWhitespace).reverse) hl2 ht2 h1 h2
  simp only [parse_agent_response, pyStrip_concat l obj t h1 h2, hf, hr]
  rw [if_pos (by constructor <;> omega)]
  rw [hs]

/-- C8: a response text consisting of one embedded JSON object (a text
starting with `'{'` and ending with `'}'`) surrounded by leading prose
without `'{'` and trailing prose without `'}'` parses to exactly the same
result as the bare object — for every decoder and every float coercion,
hence in particular the same `points_earned`, `points_possible`,
`feedback` and `correct_answer`. -/
theorem parse_prose_idem (jl : List Char → Option JVal) (pf : JVal → Option ℚ)
    (l obj t : List Char) (order : Int)
    (hl : '{' ∉ l) (ht : '}' ∉ t)
    (h1 : obj.head? = some '{') (h2 : obj.getLast? = some '}') :
    parse_agent_response jl pf (l ++ obj ++ t) order =
      parse_agent_response jl pf obj order := by
  rw [parse_agent_response_concat jl pf l obj t order hl ht h1 h2]
  have h := parse_agent_response_concat jl pf [] obj [] order (by simp) (by simp) h1 h2
  simp only [List.nil_append, List.append_nil] at h
  rw [h]

/-- A decoder that accepts exactly the two-character object `"{}"`,
used to instantiate the C8 witness. -/
def jlObj : List Char → Option JVal := fun s =>
  if s = ('{' :: '}' :: []) then some (JVal.jobj []) else none

/-- Witness for C8: prose around the object `"{}"` parses identically to
the bare object. -/
theorem parse_prose_idem_witness :
    ('{' ∉ "Grade: ".toList ∧ '}' ∉ " pistettä".toList ∧
     (('{' :: '}' :: []) : List Char).head? = some '{' ∧
     (('{' :: '}' :: []) : List Char).getLast? = some '}') ∧
    parse_agent_response jlObj pfNum
        ("Grade: ".toList ++ ('{' :: '}' :: []) ++ " pistettä".toList) 4 =
      parse_agent_response jlObj pfNum ('{' :: '}' :: []) 4 :=
  ⟨⟨by decide, by decide, rfl, rfl⟩,
   parse_prose_idem jlObj pfNum "Grade: ".toList ('{' :: '}' :: [])
     " pistettä".toList 4 (by decide) (by decide) rfl rfl⟩

end WebhookServer
